import Mathlib

/-!
Verification of the py2mc-book text-component library (`src/main.py`).

The development shallowly embeds the Python source: Python dicts become
insertion-ordered key/value lists (`KVList`), Python exceptions become an
error type threaded through `Except` or paired with the mutated state,
and Python's built-in `str()`/`repr()` rendering of the value universe
used by this program is modelled character by character.
-/

namespace Py2MC

/-- The apostrophe character (Python's single-quote string delimiter). -/
def squote : Char := Char.ofNat 39

/-- The apostrophe as a one-character string. -/
def squoteStr : String := squote.toString

/-- Opening curly brace character. -/
def lbrace : Char := Char.ofNat 123

/-- Closing curly brace character. -/
def rbrace : Char := Char.ofNat 125

mutual

/-- The universe of plain (non-object) Python values this program stores
in pages and dicts: strings, booleans, integers, lists, and dicts. -/
inductive Value where
  | str (s : String)
  | bool (b : Bool)
  | int (n : Int)
  | list (xs : VList)
  | dict (kvs : KVList)

/-- A Python list of values. -/
inductive VList where
  | nil
  | cons (hd : Value) (tl : VList)

/-- A Python dict: an insertion-ordered association list. -/
inductive KVList where
  | nil
  | cons (k : String) (v : Value) (tl : KVList)

end

/-- Converts an ordinary Lean list of values into a `VList`. -/
def VList.ofList : List Value → VList
  | [] => .nil
  | v :: tl => .cons v (VList.ofList tl)

/-- Converts an ordinary Lean association list into a `KVList`. -/
def KVList.ofList : List (String × Value) → KVList
  | [] => .nil
  | (k, v) :: tl => .cons k v (KVList.ofList tl)

/-- Concatenation of two dicts (no key deduplication; used only where the
appended keys are fresh). -/
def KVList.append : KVList → KVList → KVList
  | .nil, e => e
  | .cons k v tl, e => .cons k v (tl.append e)

/-- Whether a dict has an entry with the given key. -/
def KVList.hasKey (k : String) : KVList → Bool
  | .nil => false
  | .cons k' _ tl => k' = k || tl.hasKey k

/-- Replaces the value of every entry whose key is `k` (dicts built here
have unique keys, so this is the single in-place update of Python). -/
def KVList.setAll (k : String) (v : Value) : KVList → KVList
  | .nil => .nil
  | .cons k' v' tl => if k' = k then .cons k v (tl.setAll k v)
      else .cons k' v' (tl.setAll k v)

/-- Whether every key of the dict satisfies `p`. -/
def KVList.allKeys (p : String → Bool) : KVList → Bool
  | .nil => true
  | .cons k _ tl => p k && tl.allKeys p

/-- The distinct exception sites of `src/main.py`, one constructor per
`raise` (or built-in failure) the embedded code can reach. -/
inductive PyErr where
  /-- `color_error`: `ValueError` naming the offending color token. -/
  | colorError (token : String)
  /-- `HoverEvent.__init__`: `ValueError` for a contents value that is
  neither a `TextComponent`, an `Item`, nor an `Entity`. -/
  | invalidContents
  /-- `HoverEvent.to_dict` reads `self._contents`, which the `Item` branch
  of `__init__` never assigned (it wrote `self.contents`): `AttributeError`. -/
  | attributeError
  /-- `TranslatableComponent.translate` merges `**self.self_translate()`,
  but `self_translate` returns `None`: `TypeError`. -/
  | noneMergeTypeError
  /-- `Page.add_component` / `Book.add_page`: `ValueError` for an argument
  that is neither the expected single type nor a sequence. -/
  | mustSupplyComponent
  /-- `is_sequence_component` / `is_sequence_page` guard failure:
  `ValueError` for a sequence with an element of the wrong type. -/
  | allElementsComponent
  /-- `Book.__add__` evaluates `Book(pages=self._pages)`, omitting the
  required positional `author` and `title` arguments: `TypeError`. -/
  | missingArgsTypeError
deriving DecidableEq, Repr

/-- Python dict item assignment `d[k] = v`: replaces the value in place if
the key exists (keeping its position), otherwise appends the new pair. -/
def dictUpdate (d : KVList) (k : String) (v : Value) : KVList :=
  if d.hasKey k then d.setAll k v else d.append (.cons k v .nil)

/-- Python dict merge `{**a, **b}`: starts from `a` and assigns each pair
of `b` in order. -/
def dictMerge : KVList → KVList → KVList
  | a, .nil => a
  | a, .cons k v tl => dictMerge (dictUpdate a k v) tl

/-- Python dict lookup `d[k]` (as an `Option`): the first entry with the
given key.  Dicts built by `dictUpdate`/`dictMerge` have unique keys. -/
def dictLookup (k : String) : KVList → Option Value
  | .nil => none
  | .cons k' v tl => if k' = k then some v else dictLookup k tl

/-- Decimal digit character for `n < 10`. -/
def digitC (n : Nat) : Char := Char.ofNat (48 + n)

/-- Decimal digits of `n`, most significant first, consing onto `acc`;
`fuel` bounds the recursion and `n + 1` is always enough. -/
def natDigitsF : Nat → Nat → List Char → List Char
  | 0, _, acc => acc
  | fuel + 1, n, acc =>
    if n < 10 then digitC n :: acc
    else natDigitsF fuel (n / 10) (digitC (n % 10) :: acc)

/-- The decimal digit characters Python's `repr` emits for a
non-negative `int`. -/
def natDigits (n : Nat) : List Char := natDigitsF (n + 1) n []

/-- Python's `repr` of an `int`: optional minus sign then decimal digits. -/
def intReprL (n : Int) : List Char :=
  if n < 0 then Char.ofNat 45 :: natDigits n.natAbs else natDigits n.natAbs

/-- One escaped source character of a Python string `repr` with delimiter
`q`: backslash and the delimiter are backslash-escaped, newline / carriage
return / tab use their mnemonic escapes, other control characters (and
DEL) use `\xNN`.  Printable characters pass through unchanged (the claims
only exercise printable ASCII content). -/
def escChar (q : Char) (c : Char) : List Char :=
  if c = '\\' then ['\\', '\\']
  else if c = q then ['\\', q]
  else if c = '\n' then ['\\', 'n']
  else if c = '\r' then ['\\', 'r']
  else if c = '\t' then ['\\', 't']
  else if c.toNat < 32 ∨ c.toNat = 127 then
    ['\\', 'x', digitC (c.toNat / 16), digitC (c.toNat % 16)]
  else [c]

/-- Python's `repr` of a string (as a character list): delimited by single
quotes, except that a string containing a single quote and no double quote
is delimited by double quotes; characters are escaped by `escChar`. -/
def pyReprStrL (cs : List Char) : List Char :=
  let q : Char := if cs.contains squote && !(cs.contains '"') then '"' else squote
  q :: (cs.map (escChar q)).flatten ++ [q]

/-- Separator `", "` between Python list/dict elements. -/
def commaSp : List Char := [',', ' ']

/-- Separator `": "` between a Python dict key and value. -/
def colonSp : List Char := [':', ' ']

mutual

/-- Python's `repr`/`str` of a `Value`, as a character list: strings via
`pyReprStrL`, booleans as `True`/`False`, ints in decimal, lists in square
brackets and dicts in braces with `", "` separators and repr-ed keys. -/
def pyReprV : Value → List Char
  | .str s => pyReprStrL s.data
  | .bool b => if b then "True".data else "False".data
  | .int n => intReprL n
  | .list xs => '[' :: pyReprVL xs ++ [']']
  | .dict kvs => lbrace :: pyReprVD kvs ++ [rbrace]

/-- The comma-separated element renderings inside a list `repr`. -/
def pyReprVL : VList → List Char
  | .nil => []
  | .cons v .nil => pyReprV v
  | .cons v (.cons w tl) => pyReprV v ++ commaSp ++ pyReprVL (.cons w tl)

/-- The comma-separated `key: value` renderings inside a dict `repr`. -/
def pyReprVD : KVList → List Char
  | .nil => []
  | .cons k v .nil => pyReprStrL k.data ++ colonSp ++ pyReprV v
  | .cons k v (.cons k' v' tl) =>
      pyReprStrL k.data ++ colonSp ++ pyReprV v ++ commaSp ++
        pyReprVD (.cons k' v' tl)

end

/-- Python's `str.replace` of a single-quote character by a double quote,
applied to one character. -/
def subChar (c : Char) : Char := if c = squote then '"' else c

/-- Global single-quote → double-quote substitution (the
`.replace("'", '"')` in `Page.translate`), on a character list. -/
def subL (cs : List Char) : List Char := cs.map subChar

/-- The fixed 15-entry named-color palette (`COLOR` in the source). -/
def COLOR : List String :=
  ["black", "dark_blue", "dark_green", "dark_red", "dark_purple", "gold",
   "gray", "dark_gray", "blue", "green", "aqua", "red", "light_purple",
   "yellow", "white"]

/-- Python's `string.hexdigits`: the characters accepted after `#`. -/
def hexdigits : List Char := "0123456789abcdefABCDEF".data

/-- The color check at the top of `AnyComponent.__init__`: `None` is
accepted; a string starting with `#` must have length 7 and only hex-digit
characters after the `#`; any other string must be in `COLOR`; otherwise
`color_error` raises a `ValueError` naming the token. -/
def validateColor : Option String → Except PyErr Unit
  | none => .ok ()
  | some s =>
    match s.data with
    | [] => if COLOR.contains s then .ok () else .error (.colorError s)
    | c0 :: rest =>
      if c0 = '#' then
        if s.data.length = 7 then
          if rest.all (fun ch => hexdigits.contains ch) then .ok ()
          else .error (.colorError s)
        else .error (.colorError s)
      else if COLOR.contains s then .ok () else .error (.colorError s)

/-- `StringFormat`: tri-state display toggles plus an optional font. -/
structure SFmt where
  bold : Option Bool
  italic : Option Bool
  underlined : Option Bool
  strikethrough : Option Bool
  obfuscated : Option Bool
  font : Option String
deriving DecidableEq, Repr

/-- One optional entry of a filtered `__dict__` comprehension: absent
fields contribute nothing. -/
def optEntry (k : String) : Option Value → KVList
  | none => .nil
  | some v => .cons k v .nil

/-- `StringFormat.to_dict`: only the explicitly-set fields, in dataclass
field order. -/
def SFmt.toDict (f : SFmt) : KVList :=
  (optEntry "bold" (f.bold.map Value.bool)).append
  ((optEntry "italic" (f.italic.map Value.bool)).append
  ((optEntry "underlined" (f.underlined.map Value.bool)).append
  ((optEntry "strikethrough" (f.strikethrough.map Value.bool)).append
  ((optEntry "obfuscated" (f.obfuscated.map Value.bool)).append
  (optEntry "font" (f.font.map Value.str))))))

/-- The `ClickAction` enum; `val` is the enum member's string value. -/
inductive ClickAction where
  | url | file | runCmd | suggest | changePage | copy
deriving DecidableEq, Repr

/-- String value of a `ClickAction` member. -/
def ClickAction.val : ClickAction → String
  | .url => "open_url"
  | .file => "open_file"
  | .runCmd => "run_command"
  | .suggest => "suggest_command"
  | .changePage => "change_page"
  | .copy => "copy_to_clipboard"

/-- `ClickEvent`: an action plus a value string. -/
structure ClickE where
  action : ClickAction
  value : String
deriving DecidableEq, Repr

/-- `ClickEvent.to_dict`: both fields unconditionally present. -/
def ClickE.toDict (e : ClickE) : Value :=
  .dict (KVList.ofList [("action", .str e.action.val), ("value", .str e.value)])

/-- The `Item` dataclass: id, optional count, optional opaque tag. -/
structure ItemT where
  id : String
  count : Option Int
  tag : Option Value

/-- `Item.to_dict`: the fields that are not `None`, in field order. -/
def ItemT.toDict (i : ItemT) : KVList :=
  (optEntry "id" (some (.str i.id))).append
  ((optEntry "count" (i.count.map Value.int)).append
  (optEntry "tag" i.tag))

/-- The `Entity` dataclass: type, uuid, optional name.  The source also
admits a `TextComponent` in `name` (stored un-rendered, so its dict value
would be a bare object reference); no claim exercises that alternative,
so the model keeps `name` a string. -/
structure EntityT where
  type : String
  uuid : String
  name : Option String

/-- `Entity.to_dict`: the fields that are not `None`, in field order. -/
def EntityT.toDict (e : EntityT) : KVList :=
  (optEntry "type" (some (.str e.type))).append
  ((optEntry "uuid" (some (.str e.uuid))).append
  (optEntry "name" (e.name.map Value.str)))

mutual

/-- A constructed component object (the `BaseComponent` hierarchy), with
the fields each `__init__` stored.  `raw` is `RawComponent`, `anyC` a bare
`AnyComponent`, and the remaining constructors are the non-Raw variants. -/
inductive Cmp where
  | raw (v : Value)
  | anyC (b : CBase)
  | textC (text : String) (b : CBase)
  | translatableC (tr : String) (fallback : Option String)
      (withJson : Option Cmp) (b : CBase)
  | scoreC (nm : String) (objective : String) (b : CBase)
  | entityC (sel : String) (sep : Option Cmp) (b : CBase)
  | keybindC (kb : KVList) (b : CBase)
  | nbtC (nbt : KVList) (b : CBase)

/-- The four base fields every `AnyComponent` stores: `_color`,
`_char_attribute`, `_hover_event`, `_click_event`. -/
inductive CBase where
  | mk (color : Option String) (attr : Option SFmt)
      (hover : Option HoverStored) (click : Option ClickE)

/-- The state of a successfully constructed `HoverEvent`.  The `Item`
branch of `__init__` assigns `self.contents` instead of `self._contents`;
`itemS` records that `_contents` is absent in that case. -/
inductive HoverStored where
  | textS (c : Cmp)
  | itemS (i : ItemT)
  | entityS (e : EntityT)

end

/-- Color of a `CBase`. -/
def CBase.color : CBase → Option String
  | .mk c _ _ _ => c

/-- The value Python would pass to `HoverEvent(contents=...)`. -/
inductive HoverArg where
  | comp (c : Cmp)
  | item (i : ItemT)
  | entity (e : EntityT)
  | other (v : Value)

/-- `isinstance(c, TextComponent)`: only the `TextComponent` class itself,
which has no subclasses in the source. -/
def isTextComponent : Cmp → Bool
  | .textC _ _ => true
  | _ => false

/-- `HoverEvent.__init__`: a `TextComponent` sets `_contents` and action
`show_text`; an `Item` sets `contents` (sic) and action `show_item`; an
`Entity` sets `_contents` and action `show_entity`; anything else — other
component variants included — raises the Invalid-Contents `ValueError`. -/
def HoverEvent_init : HoverArg → Except PyErr HoverStored
  | .comp c =>
    match c with
    | .textC t b => .ok (.textS (.textC t b))
    | _ => .error .invalidContents
  | .item i => .ok (.itemS i)
  | .entity e => .ok (.entityS e)
  | .other _ => .error .invalidContents

/-- The tail of `AnyComponent.translate` after the hover entry: the
`clickEvent` assignment and the final merge with the style attributes. -/
def finishBase (data : KVList) (attr : Option SFmt) (click : Option ClickE) :
    KVList :=
  let data3 := match click with
    | some ce => dictUpdate data "clickEvent" ce.toDict
    | none => data
  match attr with
  | some a => dictMerge data3 a.toDict
  | none => data3

/-- Renders `{**base, **extra}` as a dict value, propagating a raised
base error (the shared tail of the Text/Score/Keybind `translate`s). -/
def trMergeOk (base : Except PyErr KVList) (extra : KVList) : Except PyErr Value :=
  match base with
  | .error e => .error e
  | .ok d => .ok (.dict (dictMerge d extra))

/-- The tail of `TranslatableComponent.translate` given the base dict and
the rendering of `with_json` (when set): a raised error propagates, and
otherwise merging `**self.self_translate()` — which is `None`, because
`self_translate` builds its dict but falls off the end without returning
it — raises a `TypeError`. -/
def trTranslatableStep (base : Except PyErr KVList)
    (wjr : Option (Except PyErr Value)) : Except PyErr Value :=
  match base with
  | .error e => .error e
  | .ok _d =>
    match wjr with
    | some (.error e) => .error e
    | some (.ok _) => .error .noneMergeTypeError
    | none => .error .noneMergeTypeError

/-- The tail of `EntityComponent.translate` given the base dict and the
rendering of the separator (when set): merges `type`/`selector` over the
base, then writes the separator under the misspelled key `"seperator"`. -/
def trEntityStep (base : Except PyErr KVList) (sel : String)
    (sepr : Option (Except PyErr Value)) : Except PyErr Value :=
  match base with
  | .error e => .error e
  | .ok d =>
    let d2 := dictMerge d
      (KVList.ofList [("type", .str "selector"), ("selector", .str sel)])
    match sepr with
    | some (.error e) => .error e
    | some (.ok sv) => .ok (.dict (dictUpdate d2 "seperator" sv))
    | none => .ok (.dict d2)

/-- The tail of `NbtComponent.translate`: merges the hardcoded
`type: "keybind"` entry and then the opaque nbt dict over the base. -/
def trNbtStep (base : Except PyErr KVList) (nbt : KVList) : Except PyErr Value :=
  match base with
  | .error e => .error e
  | .ok d =>
    .ok (.dict (dictMerge (dictMerge d (KVList.ofList [("type", .str "keybind")])) nbt))

/-- Wraps the base dict of a bare `AnyComponent` as its rendered value. -/
def trAnyStep (base : Except PyErr KVList) : Except PyErr Value :=
  match base with
  | .error e => .error e
  | .ok d => .ok (.dict d)

/-- The first step of `AnyComponent.translate`: `data = {}` followed by
the truthiness-guarded `data['color']` assignment (both `None` and the
empty string are falsy). -/
def colorData : Option String → KVList
  | some c => if c = "" then .nil else dictUpdate .nil "color" (.str c)
  | none => .nil

/-- The hover-event step of `AnyComponent.translate` given the rendering
of the hover event: a raise propagates, otherwise `data['hoverEvent']` is
assigned and the click/attribute tail runs. -/
def baseHoverStep (data1 : KVList) (hres : Except PyErr Value)
    (attr : Option SFmt) (click : Option ClickE) : Except PyErr KVList :=
  match hres with
  | .error e => .error e
  | .ok hv => .ok (finishBase (dictUpdate data1 "hoverEvent" hv) attr click)

/-- The `show_text` arm of `HoverEvent.to_dict` given the rendering of
the stored `TextComponent`. -/
def hoverTextStep (r : Except PyErr Value) : Except PyErr Value :=
  match r with
  | .error e => .error e
  | .ok m =>
    .ok (.dict (KVList.cons "action" (.str "show_text")
      (KVList.cons "contents" m .nil)))

mutual

/-- The `translate()` methods of the component hierarchy.  Each variant
merges its own keys over `AnyComponent.translate`'s base dict (`baseT`);
the non-recursive tails live in the `tr...Step` helpers.
`TranslatableComponent.translate` always raises (see
`trTranslatableStep`); `NbtComponent.translate` hardcodes
`type: "keybind"`; `EntityComponent.translate` writes its separator under
the misspelled key `"seperator"`. -/
def Cmp.translate : Cmp → Except PyErr Value
  | .raw v => .ok v
  | .anyC b => trAnyStep (baseT b)
  | .textC t b =>
    trMergeOk (baseT b) (KVList.ofList [("text", .str t), ("type", .str "text")])
  | .translatableC _tr _fb (some w) b =>
    trTranslatableStep (baseT b) (some (Cmp.translate w))
  | .translatableC _tr _fb none b => trTranslatableStep (baseT b) none
  | .scoreC n o b =>
    trMergeOk (baseT b) (KVList.ofList
      [("score", .dict (KVList.ofList [("name", .str n), ("objective", .str o)])),
       ("type", .str "score")])
  | .entityC sel (some s) b => trEntityStep (baseT b) sel (some (Cmp.translate s))
  | .entityC sel none b => trEntityStep (baseT b) sel none
  | .keybindC kb b =>
    trMergeOk (baseT b) (KVList.ofList
      [("keybind", .dict kb), ("type", .str "keybind")])
  | .nbtC nbt b => trNbtStep (baseT b) nbt

/-- `AnyComponent.translate`: the color entry (`colorData`), then the
hover entry (whose rendering may raise), then the click entry and the
flat merge of the style attributes (`finishBase`). -/
def baseT : CBase → Except PyErr KVList
  | .mk color attr (some h) click =>
    baseHoverStep (colorData color) (hoverToDict h) attr click
  | .mk color attr none click => .ok (finishBase (colorData color) attr click)

/-- `HoverEvent.to_dict`: `{action, contents}`.  A `TextComponent` content
is rendered with its `translate()`; an `Entity` content uses its own
`to_dict()`; for an `Item` content, reading `self._contents` raises
`AttributeError` because `__init__` stored the item under `self.contents`. -/
def hoverToDict : HoverStored → Except PyErr Value
  | .textS c => hoverTextStep (Cmp.translate c)
  | .itemS _ => .error .attributeError
  | .entityS e =>
    .ok (.dict (KVList.cons "action" (.str "show_entity")
      (KVList.cons "contents" (.dict e.toDict) .nil)))

end

/-- `TextComponent.__init__`: stores the text, then `AnyComponent.__init__`
validates the color and stores the base fields. -/
def TextComponent_init (text : String) (color : Option String)
    (attr : Option SFmt) (hover : Option HoverStored) (click : Option ClickE) :
    Except PyErr Cmp :=
  match validateColor color with
  | .error e => .error e
  | .ok _ => .ok (.textC text (.mk color attr hover click))

/-- A Python value as seen by `Page.add_component` / `Book.add_page`:
a component object, a `Page` object (identified with its `_content`), a
string (a `Sequence` of characters), a list/tuple, or any other
non-sequence value. -/
inductive PyObj where
  | comp (c : Cmp)
  | pg (pc : List Value)
  | vstr (s : String)
  | vlist (xs : List PyObj)
  | vother (v : Value)

/-- `isinstance(x, BaseComponent)`. -/
def isComp : PyObj → Bool
  | .comp _ => true
  | _ => false

/-- `isinstance(x, Page)`. -/
def isPg : PyObj → Bool
  | .pg _ => true
  | _ => false

/-- The page content of a `PyObj` known to be a Page. -/
def asPg : PyObj → Option (List Value)
  | .pg pc => some pc
  | _ => none

/-- The append loop of `Page.add_component` over a sequence that passed
`is_sequence_component`: each element is rendered and appended in order,
so a `translate()` that raises leaves the already-appended prefix in
place.  The result pairs the final `_content` with the raised error, if
any.  (The non-component fallback is unreachable after the guard; Python
would raise `AttributeError` on the missing `translate` there.) -/
def appendSeq (content : List Value) : List PyObj → List Value × Option PyErr
  | [] => (content, none)
  | .comp c :: rest =>
    match Cmp.translate c with
    | .ok m => appendSeq (content ++ [m]) rest
    | .error e => (content, some e)
  | _ :: _ => (content, some .attributeError)

/-- `Page.add_component`: a non-component non-sequence raises the
must-supply `ValueError`; a single component is rendered and appended; a
sequence is first checked by `is_sequence_component` (a string is a
sequence of characters, so only the empty string passes) and then each
element is rendered and appended in order.  Returns the new `_content`
paired with the raised error, if any. -/
def add_component (content : List Value) : PyObj → List Value × Option PyErr
  | .comp c =>
    match Cmp.translate c with
    | .ok m => (content ++ [m], none)
    | .error e => (content, some e)
  | .vstr s =>
    if s.isEmpty then (content, none) else (content, some .allElementsComponent)
  | .vlist xs =>
    if xs.all isComp then appendSeq content xs
    else (content, some .allElementsComponent)
  | .pg _ => (content, some .mustSupplyComponent)
  | .vother _ => (content, some .mustSupplyComponent)

/-- Sequential `add_component` calls (the loop in `Page.__init__`),
stopping at the first raised error. -/
def foldAdds (content : List Value) : List PyObj → List Value × Option PyErr
  | [] => (content, none)
  | x :: xs =>
    match add_component content x with
    | (c, none) => foldAdds c xs
    | (c, some e) => (c, some e)

/-- `Page.__init__`: `_content` starts as `[""]`; a truthy (non-empty)
`content` argument is added element by element via `add_component`. -/
def Page_init (arg : Option (List PyObj)) : List Value × Option PyErr :=
  match arg with
  | none => ([Value.str ""], none)
  | some xs =>
    if xs.isEmpty then ([Value.str ""], none)
    else foldAdds [Value.str ""] xs

/-- `Page.__len__`: `len(self._content) - 1` (placeholder excluded). -/
def Page_len (content : List Value) : Nat := content.length - 1

/-- `Page.translate`: `str(self._content.copy()).replace("'", '"')` —
Python's textual form of the content list with every single quote
globally replaced by a double quote. -/
def Page_translate (content : List Value) : String :=
  String.mk (subL (pyReprV (.list (VList.ofList content))))

/-- The elements of a `VList`, reclassified as plain non-sequence values
(used when a rendered list value flows back through `add_component`). -/
def vlistObjs : VList → List PyObj
  | .nil => []
  | .cons v tl => .vother v :: vlistObjs tl

/-- The elements of a Page's `_content`, reclassified as the values
`Page.__add__` feeds back into `Page(content=...)`: strings stay
character sequences, lists stay sequences (of non-component values), and
everything else (the rendered dicts in particular) is a plain
non-sequence value. -/
def valueToPyObj : Value → PyObj
  | .str s => .vstr s
  | .list vs => .vlist (vlistObjs vs)
  | .bool b => .vother (.bool b)
  | .int n => .vother (.int n)
  | .dict d => .vother (.dict d)

/-- `Page.__add__`: builds `left = Page(content=self._content)` — feeding
the receiver's rendered `_content` values back through `add_component` —
then calls `left.add_component(other)`.  Any raise propagates; the
receiver itself is never mutated. -/
def Page_add_op (content : List Value) (other : PyObj) :
    Except PyErr (List Value) :=
  match Page_init (some (content.map valueToPyObj)) with
  | (_, some e) => .error e
  | (c, none) =>
    match add_component c other with
    | (c2, none) => .ok c2
    | (_, some e) => .error e

/-- A `Book`: author, title, and the `_content` of each added page. -/
structure BookT where
  author : String
  title : String
  pages : List (List Value)

/-- `Book.__init__`: `self._pages = pages or []`. -/
def Book_init (author title : String) (pages : Option (List (List Value))) :
    BookT :=
  ⟨author, title, match pages with | none => [] | some ps => ps⟩

/-- `Book.add_page`: a non-Page non-sequence raises the must-supply
`ValueError`; a single `Page` is appended; a sequence must pass
`is_sequence_page` (again, only the empty string passes among strings)
and its pages are appended in order. -/
def add_page (pages : List (List Value)) : PyObj → List (List Value) × Option PyErr
  | .pg pc => (pages ++ [pc], none)
  | .vstr s =>
    if s.isEmpty then (pages, none) else (pages, some .allElementsComponent)
  | .vlist xs =>
    if xs.all isPg then (pages ++ xs.filterMap asPg, none)
    else (pages, some .allElementsComponent)
  | .comp _ => (pages, some .mustSupplyComponent)
  | .vother _ => (pages, some .mustSupplyComponent)

/-- `Book.__add__`: its first expression is `Book(pages=self._pages)`,
which omits the required positional `author` and `title` parameters of
`Book.__init__`, so the call raises `TypeError` before anything else
happens, for every receiver and argument. -/
def Book_add_op (_b : BookT) (_other : PyObj) : Except PyErr BookT :=
  .error .missingArgsTypeError

/-- `Book.translate`: the f-string
`'{' + f'author:"{A}", title: "{T}", pages: {[p.translate() for p in pages]}' + '}'`.
The pages expression formats the Python list of page-render strings, i.e.
its `repr`. -/
def Book_translate (b : BookT) : String :=
  "\x7bauthor:\"" ++ b.author ++ "\", title: \"" ++ b.title ++ "\", pages: " ++
    String.mk (pyReprV (.list (VList.ofList
      (b.pages.map (fun pc => Value.str (Page_translate pc)))))) ++
    "\x7d"

/-- `Book.item`: `'minecraft:written_book' + self.translate()`. -/
def Book_item (b : BookT) : String := "minecraft:written_book" ++ Book_translate b

/-- `Book.give_cmd`: `f'/give {selector} {self.item()} {count}'` (the
source defaults are `selector='@s'`, `count=1`). -/
def give_cmd (b : BookT) (selector : String) (count : Int) : String :=
  "/give " ++ selector ++ " " ++ Book_item b ++ " " ++ String.mk (intReprL count)

mutual

/-- Modelled from the spec (§6 Page encoding): the JSON-array-like textual
form of a content value with double-quote string delimiters exclusively.
It matches the code's layout for non-string atoms (the spec fixes only the
string-quoting convention) and renders every string — element or dict
key — delimited by double quotes with its characters untouched. -/
def specJsonV : Value → List Char
  | .str s => '"' :: s.data ++ ['"']
  | .bool b => if b then "True".data else "False".data
  | .int n => intReprL n
  | .list xs => '[' :: specJsonVL xs ++ [']']
  | .dict kvs => lbrace :: specJsonVD kvs ++ [rbrace]

/-- Comma-separated clean renderings of list elements. -/
def specJsonVL : VList → List Char
  | .nil => []
  | .cons v .nil => specJsonV v
  | .cons v (.cons w tl) => specJsonV v ++ commaSp ++ specJsonVL (.cons w tl)

/-- Comma-separated clean renderings of dict entries. -/
def specJsonVD : KVList → List Char
  | .nil => []
  | .cons k v .nil => '"' :: k.data ++ ['"'] ++ colonSp ++ specJsonV v
  | .cons k v (.cons k' v' tl) =>
      '"' :: k.data ++ ['"'] ++ colonSp ++ specJsonV v ++ commaSp ++
        specJsonVD (.cons k' v' tl)

end

/-- Modelled from the spec: the clean double-quoted rendering of a whole
page content list. -/
def specJsonRender (content : List Value) : String :=
  String.mk (specJsonV (.list (VList.ofList content)))

/-- A character that Python's `repr` passes through unchanged and that is
not a single quote: not the quote itself, not a backslash, and printable
ASCII. -/
def cleanChar (c : Char) : Bool :=
  !(c = squote) && !(c = '\\') && 32 ≤ c.toNat && c.toNat < 127

/-- All characters of a string clean. -/
def cleanStr (s : String) : Bool := s.data.all cleanChar

mutual

/-- A value whose every string (elements and dict keys alike) is clean. -/
def cleanV : Value → Bool
  | .str s => cleanStr s
  | .bool _ => true
  | .int _ => true
  | .list xs => cleanVL xs
  | .dict kvs => cleanVD kvs

/-- All elements of a list clean. -/
def cleanVL : VList → Bool
  | .nil => true
  | .cons v tl => cleanV v && cleanVL tl

/-- All keys and values of a dict clean. -/
def cleanVD : KVList → Bool
  | .nil => true
  | .cons k v tl => cleanStr k && cleanV v && cleanVD tl

end

/-- Modelled from the spec (§4.2): a hexadecimal digit of either case. -/
def specHexDigit (c : Char) : Prop :=
  c ∈ "0123456789".data ∨ c ∈ "abcdef".data ∨ c ∈ "ABCDEF".data

instance (c : Char) : Decidable (specHexDigit c) := by
  unfold specHexDigit
  infer_instance

/-- Modelled from the spec (§4.2): a valid non-nil color token is a
case-sensitive member of the 15-name palette, or a 7-character string
whose first character is `#` and whose remaining six characters are
hexadecimal digits of either case. -/
def specColorValid (tok : String) : Prop :=
  tok ∈ COLOR ∨
    (tok.length = 7 ∧ tok.data.head? = some '#' ∧
      ∀ c ∈ tok.data.tail, specHexDigit c)

instance (tok : String) : Decidable (specColorValid tok) := by
  unfold specColorValid
  infer_instance

/-- The base-field record with nothing set (color=None, attribute=None,
hover_event=None, click_event=None). -/
def emptyBase : CBase := .mk none none none none

/-- The Book of claim C1: author `"A"`, title `"T"`, holding exactly one
freshly constructed (empty) Page. -/
def bookC1 : BookT := ⟨"A", "T", [(Page_init none).1]⟩

end Py2MC

namespace Py2MC


/-- C1: the claim's expected command string is not what `give_cmd`
produces for the Book with author "A", title "T" and one empty Page:
`Book.translate` inserts a space after `title:` and `pages:`, and the
pages list is rendered through Python's list formatting, which wraps each
page render in single quotes. -/
theorem c1_give_cmd_not_claimed_string :
    give_cmd bookC1 "@p" 5 ≠
      "/give @p minecraft:written_book\x7bauthor:\"A\", title:\"T\", pages:[[\"\", ]]\x7d 5" := by
  decide

/-- C1 (amended): for the Book with author "A", title "T" and one empty
Page, `give_cmd('@p', 5)` returns exactly
`/give @p minecraft:written_book{author:"A", title: "T", pages: ['[""]']} 5` —
field order author→title→pages holds and the placeholder-only page
renders as `[""]`, but there is a space after `title:` and after
`pages:`, and the page render is embedded as a single-quoted Python
string inside the pages list. -/
theorem c1_give_cmd_exact_output :
    give_cmd bookC1 "@p" 5 =
      "/give @p minecraft:written_book\x7bauthor:\"A\", title: \"T\", pages: [" ++
        squoteStr ++ "[\"\"]" ++ squoteStr ++ "]\x7d 5" := by
  decide

/-- C2: `TranslatableComponent.translate` never succeeds — for every
translate string, fallback, `with` component and base fields, it raises
(`self_translate` builds its fallback/with dict but returns `None`, and
merging `**None` is a `TypeError`), so no mapping with the `translate`
key and `translatable` discriminator is ever produced. -/
theorem c2_translatable_translate_always_fails (tr : String)
    (fb : Option String) (wj : Option Cmp) (b : CBase) :
    (Cmp.translate (.translatableC tr fb wj b)).isOk = false := by
  cases wj with
  | none =>
    show (trTranslatableStep (baseT b) none).isOk = false
    cases baseT b <;> rfl
  | some w =>
    show (trTranslatableStep (baseT b) (some (Cmp.translate w))).isOk = false
    cases baseT b with
    | error e => rfl
    | ok d => cases Cmp.translate w <;> rfl

/-- C3 (counterexample): constructing a `HoverEvent` whose contents is a
`ScoreComponent` — a Component — fails with the Invalid-Contents error,
so construction does not succeed for every Component as claimed: the
source only accepts the `TextComponent` class. -/
theorem c3_score_component_hover_rejected :
    HoverEvent_init (.comp (.scoreC "n" "o" emptyBase)) =
      .error .invalidContents := rfl

/-- C3 (amended): `HoverEvent` construction succeeds exactly when the
contents is a `TextComponent`, an `Item`, or an `Entity` (all other
values, other Component variants included, fail with Invalid-Contents);
the stored action matches the variant (TextComponent→show_text,
Item→show_item, Entity→show_entity); `to_dict` returns `{action,
contents}` with the nested component's rendered mapping for a
`TextComponent` and the struct's own mapping for an `Entity`, but fails
with an `AttributeError` for an `Item` because `__init__` stored the item
under `contents` instead of `_contents`. -/
theorem c3_hover_event_amended (t : String) (b : CBase) (i : ItemT)
    (e : EntityT) (c c2 : Cmp) (m : Value) (hm : Cmp.translate c = .ok m)
    (hc2 : isTextComponent c2 = false) (v : Value) :
    HoverEvent_init (.comp (.textC t b)) = .ok (.textS (.textC t b)) ∧
    HoverEvent_init (.item i) = .ok (.itemS i) ∧
    HoverEvent_init (.entity e) = .ok (.entityS e) ∧
    HoverEvent_init (.comp c2) = .error .invalidContents ∧
    HoverEvent_init (.other v) = .error .invalidContents ∧
    hoverToDict (.textS c) =
      .ok (.dict (KVList.cons "action" (.str "show_text")
        (KVList.cons "contents" m .nil))) ∧
    hoverToDict (.itemS i) = .error .attributeError ∧
    hoverToDict (.entityS e) =
      .ok (.dict (KVList.cons "action" (.str "show_entity")
        (KVList.cons "contents" (.dict e.toDict) .nil))) := by
  refine ⟨rfl, rfl, rfl, ?_, rfl, ?_, rfl, rfl⟩
  · cases c2 <;> first
      | rfl
      | exact absurd hc2 (by simp [isTextComponent])
  · show hoverTextStep (Cmp.translate c) =
      .ok (.dict (KVList.cons "action" (.str "show_text")
        (KVList.cons "contents" m .nil)))
    rw [hm]
    rfl

/-- C3 (witness for the amended theorem). -/
theorem c3_hover_event_amended_witness :
    Cmp.translate (.textC "x" emptyBase) =
      .ok (.dict (KVList.cons "text" (.str "x")
        (KVList.cons "type" (.str "text") .nil))) ∧
    isTextComponent (.scoreC "n" "o" emptyBase) = false ∧
    (HoverEvent_init (.comp (.textC "x" emptyBase)) =
      .ok (.textS (.textC "x" emptyBase)) ∧
    HoverEvent_init (.item ⟨"stone", none, none⟩) =
      .ok (.itemS ⟨"stone", none, none⟩) ∧
    HoverEvent_init (.entity ⟨"pig", "u", none⟩) =
      .ok (.entityS ⟨"pig", "u", none⟩) ∧
    HoverEvent_init (.comp (.scoreC "n" "o" emptyBase)) =
      .error .invalidContents ∧
    HoverEvent_init (.other (.int 0)) = .error .invalidContents ∧
    hoverToDict (.textS (.textC "x" emptyBase)) =
      .ok (.dict (KVList.cons "action" (.str "show_text")
        (KVList.cons "contents" (.dict (KVList.cons "text" (.str "x")
          (KVList.cons "type" (.str "text") .nil))) .nil))) ∧
    hoverToDict (.itemS ⟨"stone", none, none⟩) = .error .attributeError ∧
    hoverToDict (.entityS ⟨"pig", "u", none⟩) =
      .ok (.dict (KVList.cons "action" (.str "show_entity")
        (KVList.cons "contents" (.dict (EntityT.toDict ⟨"pig", "u", none⟩))
          .nil)))) :=
  ⟨rfl, rfl,
    c3_hover_event_amended "x" emptyBase ⟨"stone", none, none⟩
      ⟨"pig", "u", none⟩ (.textC "x" emptyBase) (.scoreC "n" "o" emptyBase)
      (.dict (KVList.cons "text" (.str "x")
        (KVList.cons "type" (.str "text") .nil))) rfl rfl (.int 0)⟩

/-- C4: the invariant fails for the Nbt variant — `NbtComponent` with an
empty opaque dict and no base fields renders to a mapping whose `type`
discriminator is the hardcoded string `"keybind"`, not the variant's own
name `"nbt"`; and the Translatable variant never renders a mapping at all
(its `translate` raises). -/
theorem c4_nbt_type_discriminator_keybind :
    Cmp.translate (.nbtC .nil emptyBase) =
      .ok (.dict (KVList.cons "type" (.str "keybind") .nil)) ∧
    dictLookup "type" (KVList.cons "type" (.str "keybind") .nil) =
      some (.str "keybind") ∧
    "keybind" ≠ "nbt" ∧
    (Cmp.translate (.translatableC "greeting" none none emptyBase)).isOk =
      false :=
  ⟨rfl, rfl, by decide, rfl⟩

/-- C6: the additive combinator never behaves as claimed — `Book.__add__`
raises a `TypeError` for every receiver and argument (it constructs
`Book(pages=...)` without the required author and title), and
`Page.__add__` on a page holding one previously appended component raises
the must-supply `ValueError` (it feeds the receiver's rendered dicts back
through `Page(content=...)`, which rejects dicts). -/
theorem c6_add_operator_always_fails :
    (∀ (b : BookT) (other : PyObj),
      Book_add_op b other = .error .missingArgsTypeError) ∧
    Page_add_op
      [Value.str "",
       Value.dict (KVList.cons "text" (.str "hi")
         (KVList.cons "type" (.str "text") .nil))]
      (.comp (.textC "y" emptyBase)) = .error .mustSupplyComponent :=
  ⟨fun _ _ => rfl, rfl⟩

/-- C8: the separator of an `EntityComponent` is rendered under the
misspelled key `"seperator"`: for selector `"@a"` with a plain text
separator, the rendered mapping has no `"separator"` key and maps
`"seperator"` to the separator component's rendered mapping. -/
theorem c8_separator_key_misspelled :
    Cmp.translate (.entityC "@a" (some (.textC "x" emptyBase)) emptyBase) =
      .ok (.dict (KVList.cons "type" (.str "selector")
        (KVList.cons "selector" (.str "@a")
          (KVList.cons "seperator" (.dict (KVList.cons "text" (.str "x")
            (KVList.cons "type" (.str "text") .nil))) .nil)))) ∧
    dictLookup "separator"
      (KVList.cons "type" (.str "selector")
        (KVList.cons "selector" (.str "@a")
          (KVList.cons "seperator" (.dict (KVList.cons "text" (.str "x")
            (KVList.cons "type" (.str "text") .nil))) .nil))) = none ∧
    dictLookup "seperator"
      (KVList.cons "type" (.str "selector")
        (KVList.cons "selector" (.str "@a")
          (KVList.cons "seperator" (.dict (KVList.cons "text" (.str "x")
            (KVList.cons "type" (.str "text") .nil))) .nil))) =
      some (.dict (KVList.cons "text" (.str "x")
        (KVList.cons "type" (.str "text") .nil))) :=
  ⟨rfl, rfl, rfl⟩


/-- Helper for C5: appending a batch of components whose renderings are
`ms` extends the content by exactly `ms`, with no error. -/
theorem appendSeq_ok (cs : List Cmp) (ms : List Value) (content : List Value)
    (h : cs.map Cmp.translate = ms.map Except.ok) :
    appendSeq content (cs.map PyObj.comp) = (content ++ ms, none) := by
  induction cs generalizing ms content with
  | nil =>
    cases ms with
    | nil => simp [appendSeq]
    | cons m ms2 => simp at h
  | cons c cs2 ih =>
    cases ms with
    | nil => simp at h
    | cons m ms2 =>
      simp only [List.map_cons, List.cons.injEq] at h
      obtain ⟨hc, hrest⟩ := h
      simp only [List.map_cons, appendSeq, hc]
      rw [ih ms2 (content ++ [m]) hrest]
      simp

/-- Helper for C5: adding the same components one call at a time reaches
the same content, with no error. -/
theorem foldAdds_comps (cs : List Cmp) (ms : List Value) (content : List Value)
    (h : cs.map Cmp.translate = ms.map Except.ok) :
    foldAdds content (cs.map PyObj.comp) = (content ++ ms, none) := by
  induction cs generalizing ms content with
  | nil =>
    cases ms with
    | nil => simp [foldAdds]
    | cons m ms2 => simp at h
  | cons c cs2 ih =>
    cases ms with
    | nil => simp at h
    | cons m ms2 =>
      simp only [List.map_cons, List.cons.injEq] at h
      obtain ⟨hc, hrest⟩ := h
      simp only [List.map_cons, foldAdds, add_component, hc]
      rw [ih ms2 (content ++ [m]) hrest]
      simp

/-- Helper for C5: a list of wrapped components passes the
`is_sequence_component` guard. -/
theorem all_isComp_map (cs : List Cmp) :
    (cs.map PyObj.comp).all isComp = true := by
  simp [List.all_map, isComp, Function.comp]

/-- C5: for a page with non-empty `_content` (every real page starts with
the placeholder) and any batch of components whose renderings are `ms`,
adding them as one sequence or one at a time yields the same new content
`content ++ ms` with no error, and `length()` grows by exactly the number
of appended components; a sequence failing the component guard (any
non-Component element, mixed sequences included) raises the Type error
and leaves the content exactly unchanged — no partial append — and so
does a non-component non-sequence argument. -/
theorem c5_page_append_length_atomic (content : List Value) (hc : content ≠ [])
    (cs : List Cmp) (ms : List Value)
    (h : cs.map Cmp.translate = ms.map Except.ok) :
    add_component content (.vlist (cs.map PyObj.comp)) = (content ++ ms, none) ∧
    foldAdds content (cs.map PyObj.comp) = (content ++ ms, none) ∧
    Page_len (content ++ ms) = Page_len content + cs.length ∧
    (∀ xs : List PyObj, xs.all isComp = false →
      add_component content (.vlist xs) = (content, some .allElementsComponent)) ∧
    (∀ v : Value, add_component content (.vother v) =
      (content, some .mustSupplyComponent)) := by
  refine ⟨?_, foldAdds_comps cs ms content h, ?_, ?_, fun v => rfl⟩
  · simp only [add_component, all_isComp_map, if_true]
    exact appendSeq_ok cs ms content h
  · have hlen : ms.length = cs.length := by
      have := congrArg List.length h
      simpa using this.symm
    have hpos : 0 < content.length := List.length_pos.mpr hc
    simp only [Page_len, List.length_append]
    omega
  · intro xs hxs
    simp [add_component, hxs]

/-- C5 (witness). -/
theorem c5_page_append_length_atomic_witness :
    ([Value.str ""] ≠ ([] : List Value)) ∧
    ([Cmp.textC "a" emptyBase].map Cmp.translate =
      [Value.dict (KVList.cons "text" (Value.str "a")
        (KVList.cons "type" (Value.str "text") .nil))].map Except.ok) ∧
    add_component [Value.str ""]
      (.vlist ([Cmp.textC "a" emptyBase].map PyObj.comp)) =
      ([Value.str "",
        Value.dict (KVList.cons "text" (Value.str "a")
          (KVList.cons "type" (Value.str "text") .nil))], none) :=
  ⟨List.cons_ne_nil _ _, rfl,
    (c5_page_append_length_atomic [Value.str ""] (List.cons_ne_nil _ _)
      [Cmp.textC "a" emptyBase]
      [Value.dict (KVList.cons "text" (Value.str "a")
        (KVList.cons "type" (Value.str "text") .nil))] rfl).1⟩

/-- C10: adding an empty sequence — the empty list or the empty string,
strings being sequences of characters — to a Page or a Book raises no
error and appends nothing (and `add_component`/`add_page` return the
receiver), while any non-empty string, being a non-empty sequence of
non-Components, is rejected with the Type error and leaves the content
unchanged. -/
theorem c10_empty_sequence_append (content : List Value)
    (pages : List (List Value)) :
    add_component content (.vstr "") = (content, none) ∧
    add_component content (.vlist []) = (content, none) ∧
    add_page pages (.vstr "") = (pages, none) ∧
    add_page pages (.vlist []) = (pages, none) ∧
    (∀ s : String, s ≠ "" →
      add_component content (.vstr s) = (content, some .allElementsComponent)) ∧
    (∀ s : String, s ≠ "" →
      add_page pages (.vstr s) = (pages, some .allElementsComponent)) := by
  refine ⟨rfl, rfl, rfl, by simp [add_page], ?_, ?_⟩ <;>
    · intro s hs
      have he : s.isEmpty = false := by
        rw [Bool.eq_false_iff]
        intro h2
        exact hs ((String.isEmpty_iff s).mp h2)
      simp [add_component, add_page, he]

/-- C10 (witness). -/
theorem c10_empty_sequence_append_witness :
    ("ab" ≠ "") ∧
    add_component [Value.str ""] (.vstr "ab") =
      ([Value.str ""], some .allElementsComponent) :=
  ⟨by decide,
    (c10_empty_sequence_append [Value.str ""] []).2.2.2.2.1 "ab" (by decide)⟩

end Py2MC


namespace Py2MC

theorem dictLookup_setAll_ne : ∀ (d : KVList) (k k2 : String) (v : Value),
    k2 ≠ k → dictLookup k (d.setAll k2 v) = dictLookup k d
  | .nil, _, _, _, _ => rfl
  | .cons k3 v3 tl, k, k2, v, h => by
    have ih := dictLookup_setAll_ne tl k k2 v h
    by_cases h3 : k3 = k2
    · subst h3
      simp [KVList.setAll, dictLookup, h, ih]
    · simp [KVList.setAll, h3, dictLookup, ih]

theorem dictLookup_append_single_ne : ∀ (d : KVList) (k k2 : String) (v : Value),
    k2 ≠ k → dictLookup k (d.append (.cons k2 v .nil)) = dictLookup k d
  | .nil, k, k2, v, h => by simp [KVList.append, dictLookup, h]
  | .cons k3 v3 tl, k, k2, v, h => by
    have ih := dictLookup_append_single_ne tl k k2 v h
    simp [KVList.append, dictLookup, ih]

theorem dictLookup_update_ne (d : KVList) (k k2 : String) (v : Value)
    (h : k2 ≠ k) : dictLookup k (dictUpdate d k2 v) = dictLookup k d := by
  unfold dictUpdate
  by_cases hk : d.hasKey k2
  · simp [hk, dictLookup_setAll_ne d k k2 v h]
  · simp [hk, dictLookup_append_single_ne d k k2 v h]

theorem dictLookup_merge_allKeys_ne : ∀ (e d : KVList) (k : String),
    e.allKeys (fun k2 => k2 != k) = true →
    dictLookup k (dictMerge d e) = dictLookup k d
  | .nil, _, _, _ => rfl
  | .cons k2 v2 tl, d, k, h => by
    simp only [KVList.allKeys, Bool.and_eq_true, bne_iff_ne] at h
    obtain ⟨hne, htl⟩ := h
    show dictLookup k (dictMerge (dictUpdate d k2 v2) tl) = dictLookup k d
    rw [dictLookup_merge_allKeys_ne tl (dictUpdate d k2 v2) k
      (by simp [htl])]
    exact dictLookup_update_ne d k k2 v2 hne

theorem optEntry_allKeys (k : String) (o : Option Value) (p : String → Bool)
    (h : p k = true) : (optEntry k o).allKeys p = true := by
  cases o <;> simp [optEntry, KVList.allKeys, h]

theorem allKeys_append : ∀ (a b : KVList) (p : String → Bool),
    (a.append b).allKeys p = (a.allKeys p && b.allKeys p)
  | .nil, b, p => by simp [KVList.append, KVList.allKeys]
  | .cons k v tl, b, p => by
    have ih := allKeys_append tl b p
    simp [KVList.append, KVList.allKeys, ih, Bool.and_assoc]

theorem sfmt_toDict_keys_ne_color (a : SFmt) :
    (a.toDict).allKeys (fun k2 => k2 != "color") = true := by
  obtain ⟨b, i, u, st, o, f⟩ := a
  simp only [SFmt.toDict, allKeys_append, Bool.and_eq_true]
  refine ⟨?_, ?_, ?_, ?_, ?_, ?_⟩ <;>
    exact optEntry_allKeys _ _ _ (by decide)

theorem specColorValid_ne_empty (tok : String) (h : specColorValid tok) :
    tok ≠ "" := by
  intro he
  subst he
  rcases h with h | ⟨hl, _, _⟩
  · exact absurd h (by decide)
  · exact absurd hl (by decide)

theorem hexChar_iff (c : Char) :
    hexdigits.contains c = true ↔ specHexDigit c := by
  rw [show hexdigits =
      "0123456789".data ++ ("abcdef".data ++ "ABCDEF".data) from rfl]
  simp only [specHexDigit]
  simp [List.mem_append]
  tauto

theorem color_names_head (s : String) (h : s ∈ COLOR) :
    s.data.head? ≠ some '#' := by
  fin_cases h <;> decide

theorem validateColor_iff (tok : String) :
    validateColor (some tok) = .ok () ↔ specColorValid tok := by
  obtain ⟨data⟩ := tok
  cases data with
  | nil =>
    rw [show validateColor (some (String.mk [])) =
      .error (.colorError (String.mk [])) from rfl]
    constructor
    · intro h
      cases h
    · intro h
      exact absurd h (by decide)
  | cons c0 rest =>
    by_cases hc : c0 = '#'
    · subst hc
      rw [show validateColor (some (String.mk ('#' :: rest))) =
        (if (String.mk ('#' :: rest)).data.length = 7 then
          if rest.all (fun ch => hexdigits.contains ch) then Except.ok ()
          else .error (.colorError (String.mk ('#' :: rest)))
        else .error (.colorError (String.mk ('#' :: rest)))) from rfl]
      constructor
      · intro h
        right
        split at h
        next h7 =>
          split at h
          next hall =>
            refine ⟨h7, rfl, ?_⟩
            intro c hcm
            exact (hexChar_iff c).mp (List.all_eq_true.mp hall c hcm)
          next => cases h
        next => cases h
      · intro h
        rcases h with h | ⟨hl, _, hhex⟩
        · exact absurd (color_names_head _ h) (by simp)
        · have hall : rest.all (fun ch => hexdigits.contains ch) = true := by
            rw [List.all_eq_true]
            intro c hcm
            exact (hexChar_iff c).mpr (hhex c hcm)
          rw [if_pos (show (String.mk ('#' :: rest)).data.length = 7 from hl),
            if_pos hall]
    · rw [show validateColor (some (String.mk (c0 :: rest))) =
        (if c0 = '#' then
          (if (String.mk (c0 :: rest)).data.length = 7 then
            if rest.all (fun ch => hexdigits.contains ch) then Except.ok ()
            else .error (.colorError (String.mk (c0 :: rest)))
          else .error (.colorError (String.mk (c0 :: rest))))
         else if COLOR.contains (String.mk (c0 :: rest)) then Except.ok ()
          else .error (.colorError (String.mk (c0 :: rest)))) from rfl]
      rw [if_neg hc]
      have hcm : COLOR.contains (String.mk (c0 :: rest)) = true ↔
          (String.mk (c0 :: rest)) ∈ COLOR := by simp
      constructor
      · intro h
        left
        split at h
        next hmem => exact hcm.mp hmem
        next => cases h
      · intro h
        rcases h with h | ⟨_, hh, _⟩
        · rw [if_pos (hcm.mpr h)]
        · rw [show (String.mk (c0 :: rest)).data.head? = some c0 from rfl] at hh
          exact absurd (Option.some.inj hh) hc

end Py2MC

namespace Py2MC

/-- Helper for C7: `validateColor` either accepts or raises the Color
error naming the offending token. -/
theorem validateColor_cases (tok : String) :
    validateColor (some tok) = .ok () ∨
    validateColor (some tok) = .error (.colorError tok) := by
  obtain ⟨data⟩ := tok
  cases data with
  | nil =>
    right
    rfl
  | cons c0 rest =>
    rw [show validateColor (some (String.mk (c0 :: rest))) =
      (if c0 = '#' then
        (if (String.mk (c0 :: rest)).data.length = 7 then
          if rest.all (fun ch => hexdigits.contains ch) then Except.ok ()
          else .error (.colorError (String.mk (c0 :: rest)))
        else .error (.colorError (String.mk (c0 :: rest))))
       else if COLOR.contains (String.mk (c0 :: rest)) then Except.ok ()
        else .error (.colorError (String.mk (c0 :: rest)))) from rfl]
    by_cases hc : c0 = '#'
    · rw [if_pos hc]
      by_cases h7 : (String.mk (c0 :: rest)).data.length = 7
      · rw [if_pos h7]
        by_cases hall : rest.all (fun ch => hexdigits.contains ch) = true
        · rw [if_pos hall]
          left
          rfl
        · rw [if_neg hall]
          right
          rfl
      · rw [if_neg h7]
        right
        rfl
    · rw [if_neg hc]
      by_cases hm : COLOR.contains (String.mk (c0 :: rest)) = true
      · rw [if_pos hm]
        left
        rfl
      · rw [if_neg hm]
        right
        rfl

/-- C7: a color token is accepted exactly when it is a case-sensitive
member of the fixed 15-name palette or a 7-character `#`-prefixed string
of six hexadecimal digits of either case (and `None` is accepted); for
every accepted non-nil token, `TextComponent` construction succeeds and
the rendered mapping carries the key `color` with the token verbatim
(whatever style attributes are set); for every rejected token,
construction fails with the Color error naming the token. -/
theorem c7_color_validation (tok text : String) (attr : Option SFmt) :
    (validateColor (some tok) = .ok () ↔ specColorValid tok) ∧
    validateColor none = .ok () ∧
    COLOR.length = 15 ∧
    (specColorValid tok →
      ∃ d : KVList,
        TextComponent_init text (some tok) attr none none =
          .ok (.textC text (.mk (some tok) attr none none)) ∧
        Cmp.translate (.textC text (.mk (some tok) attr none none)) =
          .ok (.dict d) ∧
        dictLookup "color" d = some (.str tok)) ∧
    (¬ specColorValid tok →
      TextComponent_init text (some tok) attr none none =
        .error (.colorError tok)) := by
  refine ⟨validateColor_iff tok, rfl, rfl, ?_, ?_⟩
  · intro hv
    have hok : validateColor (some tok) = .ok () := (validateColor_iff tok).mpr hv
    have hne : tok ≠ "" := specColorValid_ne_empty tok hv
    have hinit : TextComponent_init text (some tok) attr none none =
        .ok (.textC text (.mk (some tok) attr none none)) := by
      unfold TextComponent_init
      rw [hok]
    have htr : Cmp.translate (.textC text (.mk (some tok) attr none none)) =
        .ok (.dict (dictMerge (finishBase (colorData (some tok)) attr none)
          (KVList.ofList [("text", .str text), ("type", .str "text")]))) := rfl
    refine ⟨_, hinit, htr, ?_⟩
    have hcd : colorData (some tok) = KVList.cons "color" (.str tok) .nil := by
      simp [colorData, hne, dictUpdate, KVList.hasKey, KVList.append]
    rw [dictLookup_merge_allKeys_ne
      (KVList.ofList [("text", .str text), ("type", .str "text")])
      (finishBase (colorData (some tok)) attr none) "color" (by rfl)]
    cases attr with
    | none =>
      rw [show finishBase (colorData (some tok)) none none =
        colorData (some tok) from rfl, hcd]
      simp [dictLookup]
    | some a =>
      rw [show finishBase (colorData (some tok)) (some a) none =
        dictMerge (colorData (some tok)) a.toDict from rfl]
      rw [dictLookup_merge_allKeys_ne _ _ _ (sfmt_toDict_keys_ne_color a), hcd]
      simp [dictLookup]
  · intro hnv
    have herr : validateColor (some tok) = .error (.colorError tok) := by
      rcases validateColor_cases tok with h | h
      · exact absurd ((validateColor_iff tok).mp h) hnv
      · exact h
    unfold TextComponent_init
    rw [herr]

/-- C7 (witness). -/
theorem c7_color_validation_witness :
    specColorValid "#1A2b3C" ∧
    (∃ d : KVList,
      TextComponent_init "hi" (some "#1A2b3C") none none none =
        .ok (.textC "hi" (.mk (some "#1A2b3C") none none none)) ∧
      Cmp.translate (.textC "hi" (.mk (some "#1A2b3C") none none none)) =
        .ok (.dict d) ∧
      dictLookup "color" d = some (.str "#1A2b3C")) :=
  ⟨by decide, (c7_color_validation "#1A2b3C" "hi" none).2.2.2.1 (by decide)⟩

end Py2MC


namespace Py2MC

theorem cleanChar_props (c : Char) (h : cleanChar c = true) :
    c ≠ squote ∧ c ≠ '\\' ∧ 32 ≤ c.toNat ∧ c.toNat < 127 := by
  simp only [cleanChar, Bool.and_eq_true, Bool.not_eq_eq_eq_not, Bool.not_true,
    decide_eq_false_iff_not, decide_eq_true_eq] at h
  exact ⟨h.1.1.1, h.1.1.2, h.1.2, h.2⟩

theorem subChar_clean (c : Char) (h : cleanChar c = true) : subChar c = c := by
  obtain ⟨h1, _, _, _⟩ := cleanChar_props c h
  simp [subChar, h1]

theorem map_subChar_clean : ∀ cs : List Char, cs.all cleanChar = true →
    cs.map subChar = cs
  | [], _ => rfl
  | c :: tl, h => by
    simp only [List.all_cons, Bool.and_eq_true] at h
    simp [subChar_clean c h.1, map_subChar_clean tl h.2]

theorem escChar_clean (c : Char) (h : cleanChar c = true) :
    escChar squote c = [c] := by
  obtain ⟨h1, h2, h3, h4⟩ := cleanChar_props c h
  have hn : c ≠ '\n' := by
    intro he
    rw [he] at h3
    exact absurd h3 (by decide)
  have hr : c ≠ '\r' := by
    intro he
    rw [he] at h3
    exact absurd h3 (by decide)
  have ht : c ≠ '\t' := by
    intro he
    rw [he] at h3
    exact absurd h3 (by decide)
  have hlow : ¬(c.toNat < 32 ∨ c.toNat = 127) := by omega
  simp [escChar, h1, h2, hn, hr, ht, hlow]

theorem flatten_escChar_clean : ∀ cs : List Char, cs.all cleanChar = true →
    (cs.map (escChar squote)).flatten = cs
  | [], _ => rfl
  | c :: tl, h => by
    simp only [List.all_cons, Bool.and_eq_true] at h
    simp [escChar_clean c h.1, flatten_escChar_clean tl h.2]

theorem contains_squote_clean (cs : List Char) (h : cs.all cleanChar = true) :
    cs.contains squote = false := by
  rw [Bool.eq_false_iff]
  intro hmem
  have hm : squote ∈ cs := by simpa using hmem
  have := List.all_eq_true.mp h squote hm
  exact absurd this (by decide)

theorem pyReprStrL_clean (cs : List Char) (h : cs.all cleanChar = true) :
    pyReprStrL cs = squote :: cs ++ [squote] := by
  simp only [pyReprStrL, contains_squote_clean cs h, Bool.false_and,
    Bool.and_eq_true]
  simp [flatten_escChar_clean cs h]

theorem subL_str_clean (s : String) (h : cleanStr s = true) :
    subL (pyReprStrL s.data) = '"' :: s.data ++ ['"'] := by
  rw [pyReprStrL_clean s.data h]
  simp only [subL, List.map_cons, List.map_append, List.map_cons, List.map_nil]
  rw [map_subChar_clean s.data h]
  rfl

theorem digitC_ne_squote (n : Nat) (h : n < 10) : digitC n ≠ squote := by
  interval_cases n <;> decide

theorem natDigitsF_clean : ∀ (fuel n : Nat) (acc : List Char),
    (∀ c ∈ acc, c ≠ squote) → ∀ c ∈ natDigitsF fuel n acc, c ≠ squote
  | 0, _, acc, hacc => hacc
  | fuel + 1, n, acc, hacc => by
    simp only [natDigitsF]
    split
    next hlt =>
      intro c hc
      rcases List.mem_cons.mp hc with h | h
      · rw [h]
        exact digitC_ne_squote n hlt
      · exact hacc c h
    next hge =>
      exact natDigitsF_clean fuel (n / 10) (digitC (n % 10) :: acc)
        (by
          intro c hc
          rcases List.mem_cons.mp hc with h | h
          · rw [h]
            exact digitC_ne_squote (n % 10) (Nat.mod_lt n (by omega))
          · exact hacc c h)

theorem map_subChar_nosquote : ∀ cs : List Char,
    (∀ c ∈ cs, c ≠ squote) → cs.map subChar = cs
  | [], _ => rfl
  | c :: tl, h => by
    have h1 : c ≠ squote := h c (List.mem_cons_self c tl)
    have ih := map_subChar_nosquote tl (fun x hx => h x (List.mem_cons_of_mem c hx))
    simp [subChar, h1, ih]

theorem subL_intRepr (n : Int) : subL (intReprL n) = intReprL n := by
  have hd : ∀ c ∈ intReprL n, c ≠ squote := by
    intro c hc
    unfold intReprL at hc
    split at hc
    · rcases List.mem_cons.mp hc with h | h
      · rw [h]
        decide
      · exact natDigitsF_clean _ _ [] (by simp) c h
    · exact natDigitsF_clean _ _ [] (by simp) c hc
  exact map_subChar_nosquote (intReprL n) hd

end Py2MC

namespace Py2MC

mutual

/-- Helper for C9: on clean values the quote substitution turns Python's
`repr` into the clean double-quoted rendering. -/
theorem subRepr_cleanV : ∀ v : Value, cleanV v = true →
    subL (pyReprV v) = specJsonV v
  | .str s, h => subL_str_clean s h
  | .bool b, _ => by cases b <;> rfl
  | .int n, _ => subL_intRepr n
  | .list xs, h => by
    have ih := subRepr_cleanVL xs h
    show subL ('[' :: pyReprVL xs ++ [']']) = '[' :: specJsonVL xs ++ [']']
    simp only [subL, List.map_cons, List.map_append, List.map_nil]
    rw [show subChar '[' = '[' from by decide,
      show subChar ']' = ']' from by decide]
    rw [show List.map subChar (pyReprVL xs) = subL (pyReprVL xs) from rfl, ih]
  | .dict kvs, h => by
    have ih := subRepr_cleanVD kvs h
    show subL (lbrace :: pyReprVD kvs ++ [rbrace]) =
      lbrace :: specJsonVD kvs ++ [rbrace]
    simp only [subL, List.map_cons, List.map_append, List.map_nil]
    rw [show subChar lbrace = lbrace from by decide,
      show subChar rbrace = rbrace from by decide]
    rw [show List.map subChar (pyReprVD kvs) = subL (pyReprVD kvs) from rfl, ih]

theorem subRepr_cleanVL : ∀ xs : VList, cleanVL xs = true →
    subL (pyReprVL xs) = specJsonVL xs
  | .nil, _ => rfl
  | .cons v .nil, h => by
    have hv : cleanV v = true := by
      rw [show cleanVL (.cons v .nil) = (cleanV v && cleanVL .nil) from rfl,
        Bool.and_eq_true] at h
      exact h.1
    show subL (pyReprV v) = specJsonV v
    exact subRepr_cleanV v hv
  | .cons v (.cons w tl), h => by
    rw [show cleanVL (.cons v (.cons w tl)) =
      (cleanV v && cleanVL (.cons w tl)) from rfl, Bool.and_eq_true] at h
    show subL (pyReprV v ++ commaSp ++ pyReprVL (.cons w tl)) =
      specJsonV v ++ commaSp ++ specJsonVL (.cons w tl)
    simp only [subL, List.map_append]
    rw [show List.map subChar commaSp = commaSp from by decide]
    rw [show List.map subChar (pyReprV v) = subL (pyReprV v) from rfl,
      show List.map subChar (pyReprVL (.cons w tl)) =
        subL (pyReprVL (.cons w tl)) from rfl]
    rw [subRepr_cleanV v h.1, subRepr_cleanVL (.cons w tl) h.2]

theorem subRepr_cleanVD : ∀ kvs : KVList, cleanVD kvs = true →
    subL (pyReprVD kvs) = specJsonVD kvs
  | .nil, _ => rfl
  | .cons k v .nil, h => by
    rw [show cleanVD (.cons k v .nil) =
      (cleanStr k && cleanV v && cleanVD .nil) from rfl,
      Bool.and_eq_true, Bool.and_eq_true] at h
    show subL (pyReprStrL k.data ++ colonSp ++ pyReprV v) =
      '"' :: k.data ++ ['"'] ++ colonSp ++ specJsonV v
    simp only [subL, List.map_append]
    rw [show List.map subChar colonSp = colonSp from by decide]
    rw [show List.map subChar (pyReprStrL k.data) =
        subL (pyReprStrL k.data) from rfl,
      show List.map subChar (pyReprV v) = subL (pyReprV v) from rfl]
    rw [subL_str_clean k h.1.1, subRepr_cleanV v h.1.2]
  | .cons k v (.cons k2 v2 tl), h => by
    rw [show cleanVD (.cons k v (.cons k2 v2 tl)) =
      (cleanStr k && cleanV v && cleanVD (.cons k2 v2 tl)) from rfl,
      Bool.and_eq_true, Bool.and_eq_true] at h
    show subL (pyReprStrL k.data ++ colonSp ++ pyReprV v ++ commaSp ++
        pyReprVD (.cons k2 v2 tl)) =
      '"' :: k.data ++ ['"'] ++ colonSp ++ specJsonV v ++ commaSp ++
        specJsonVD (.cons k2 v2 tl)
    simp only [subL, List.map_append]
    rw [show List.map subChar colonSp = colonSp from by decide,
      show List.map subChar commaSp = commaSp from by decide]
    rw [show List.map subChar (pyReprStrL k.data) =
        subL (pyReprStrL k.data) from rfl,
      show List.map subChar (pyReprV v) = subL (pyReprV v) from rfl,
      show List.map subChar (pyReprVD (.cons k2 v2 tl)) =
        subL (pyReprVD (.cons k2 v2 tl)) from rfl]
    rw [subL_str_clean k h.1.1, subRepr_cleanV v h.1.2,
      subRepr_cleanVD (.cons k2 v2 tl) h.2]

end

theorem all_cleanV_ofList : ∀ pc : List Value, pc.all cleanV = true →
    cleanVL (VList.ofList pc) = true
  | [], _ => rfl
  | v :: tl, h => by
    simp only [List.all_cons, Bool.and_eq_true] at h
    show (cleanV v && cleanVL (VList.ofList tl)) = true
    rw [h.1, all_cleanV_ofList tl h.2]
    rfl

/-- C9: `Page.translate` returns exactly the Python textual form of its
content list (leading placeholder included) with every single-quote
character globally replaced by a double quote; consequently, for content
whose strings (and dict keys) hold no single quote — and none of the
characters Python's `repr` escapes — the output coincides with the clean
double-quote-delimited JSON-array-like form, i.e. the corruption is
exactly the substitution and confined to content containing that
character, as the single-quoted example shows. -/
theorem c9_page_render_quote_substitution (pc : List Value)
    (h : pc.all cleanV = true) :
    Page_translate pc = String.mk (subL (pyReprV (.list (VList.ofList pc)))) ∧
    Page_translate pc = specJsonRender pc ∧
    Page_translate [Value.str "", Value.str (String.mk ['i', 't', squote, 's'])] ≠
      specJsonRender [Value.str "",
        Value.str (String.mk ['i', 't', squote, 's'])] := by
  refine ⟨rfl, ?_, by decide⟩
  unfold Page_translate specJsonRender
  congr 1
  exact subRepr_cleanV (.list (VList.ofList pc)) (all_cleanV_ofList pc h)

/-- C9 (witness). -/
theorem c9_page_render_quote_substitution_witness :
    ([Value.str "", Value.dict (KVList.cons "text" (.str "Hi")
      (KVList.cons "type" (.str "text") .nil))].all cleanV = true) ∧
    Page_translate [Value.str "", Value.dict (KVList.cons "text" (.str "Hi")
      (KVList.cons "type" (.str "text") .nil))] =
    specJsonRender [Value.str "", Value.dict (KVList.cons "text" (.str "Hi")
      (KVList.cons "type" (.str "text") .nil))] :=
  ⟨by decide,
    (c9_page_render_quote_substitution
      [Value.str "", Value.dict (KVList.cons "text" (.str "Hi")
        (KVList.cons "type" (.str "text") .nil))] (by decide)).2.1⟩

end Py2MC
